import Mathlib

/-
Verification development for the TechFlow AI Recruiter repository.

The file shallowly embeds the core of the repository in Lean 4:

* `Recruiter.Date` and the date arithmetic used by
  `SchedulingAdvisor._parse_datetime` (src/app/modules/advisors/scheduling_advisor.py),
* the pure text heuristics of `RecruitmentBot` (`_update_screening_progress`,
  `_is_disengaged`, src/app/modules/agents.py),
* the slot store operations of `DatabaseManager` (src/app/modules/database.py)
  and of the deterministic fallback path of `MongoDBManager`
  (src/app/modules/schedule/db_manager.py),
* the per-turn orchestration `RecruitmentBot.process_turn` (src/app/modules/agents.py),
  with every external LLM capability modelled as an oracle input (`TurnEnv`):
  the oracle supplies the raw classifier outputs and generated texts, while all
  post-processing, validation and routing logic is translated from the source.

Python strings are modelled as Lean `String`/`List Char`; the Python `str`
operations used by the code (`lower`, `upper`, `strip`, `in`, `count`) are
reimplemented below for the ASCII range, which covers every literal the code
compares against.  Machine integers do not occur (all Python ints here are
unbounded).  Dates are modelled as proleptic Gregorian triples with the same
day arithmetic as the Python `datetime.date` (`toordinal`/`fromordinal`).
-/

namespace Recruiter

/-! ## ASCII string primitives (models of the Python str operations used) -/

/-- Model of the Python `\s` character class (ASCII range). -/
def isPySpace (c : Char) : Bool :=
  c.toNat = 32 || c.toNat = 9 || c.toNat = 10 || c.toNat = 13 || c.toNat = 11 || c.toNat = 12

/-- Model of the Python `\d` character class (ASCII range). -/
def isDigitChar (c : Char) : Bool :=
  48 ≤ c.toNat && c.toNat ≤ 57

/-- ASCII lower-casing of one character, as done by `str.lower` on the
inputs the code compares against. -/
def lowerChar (c : Char) : Char :=
  if 65 ≤ c.toNat ∧ c.toNat ≤ 90 then Char.ofNat (c.toNat + 32) else c

/-- ASCII upper-casing of one character (`str.upper`). -/
def upperChar (c : Char) : Char :=
  if 97 ≤ c.toNat ∧ c.toNat ≤ 122 then Char.ofNat (c.toNat - 32) else c

/-- Model of Python `text.lower()`. -/
def lowerStr (s : String) : String :=
  String.mk (s.toList.map lowerChar)

/-- Model of Python `text.upper()`. -/
def upperStr (s : String) : String :=
  String.mk (s.toList.map upperChar)

/-- Model of Python `text.strip()`. -/
def trimStr (s : String) : String :=
  String.mk (((s.toList.dropWhile isPySpace).reverse.dropWhile isPySpace).reverse)

/-- Does `needle` occur as a contiguous substring of `hay`?
Model of the Python `needle in hay`. -/
def containsList (needle : List Char) : List Char → Bool
  | [] => needle.isEmpty
  | c :: t => needle.isPrefixOf (c :: t) || containsList needle t

/-- Model of the Python `needle in hay` on strings. -/
def containsStr (hay needle : String) : Bool :=
  containsList needle.toList hay.toList

/-- Non-overlapping substring count; model of the Python `hay.count(needle)` for
a non-empty `needle`.  The structural fuel equals the length of the remaining
haystack, so the recursion always has enough fuel for non-empty needles. -/
def countOccAux (needle : List Char) : Nat → List Char → Nat
  | 0, _ => 0
  | _, [] => 0
  | fuel + 1, c :: t =>
    if needle.isPrefixOf (c :: t) && !needle.isEmpty then
      1 + countOccAux needle fuel ((c :: t).drop needle.length)
    else
      countOccAux needle fuel t

/-- Model of the Python `hay.count(needle)` (used with non-empty needles only). -/
def countStr (hay needle : String) : Nat :=
  countOccAux needle.toList hay.toList.length hay.toList

/-- Decimal rendering of a natural number padded to width 2
(Python `f"{n:02d}"`). -/
def pad2 (n : Nat) : String :=
  if n < 10 then "0" ++ toString n else toString n

/-- Decimal rendering padded to width 4 (Python `strftime` `%Y`). -/
def pad4 (n : Nat) : String :=
  if n < 10 then "000" ++ toString n
  else if n < 100 then "00" ++ toString n
  else if n < 1000 then "0" ++ toString n
  else toString n

/-! ## Calendar dates

`Date` models the date part of a Python `datetime`.  `toOrd` counts days since
0000-03-01 of the proleptic Gregorian calendar (the classic civil-date
algorithms); `ofOrd` is its inverse.  `weekday` is calibrated so that it agrees
with `date.weekday()` of Python (Monday = 0): day 739352 = 2024-06-10 is a
Monday. -/

structure Date where
  y : Nat
  m : Nat
  d : Nat
deriving DecidableEq

/-- Days since 0000-03-01, proleptic Gregorian (valid for dates ≥ 0001-01-01). -/
def Date.toOrd (dt : Date) : Nat :=
  let y := if dt.m ≤ 2 then dt.y - 1 else dt.y
  let era := y / 400
  let yoe := y % 400
  let mp := if dt.m > 2 then dt.m - 3 else dt.m + 9
  let doy := (153 * mp + 2) / 5 + dt.d - 1
  let doe := yoe * 365 + yoe / 4 - yoe / 100 + doy
  era * 146097 + doe

/-- Inverse of `Date.toOrd` (valid for `z` representing dates ≥ 0001-01-01). -/
def Date.ofOrd (z : Nat) : Date :=
  let era := z / 146097
  let doe := z % 146097
  let yoe := (doe - doe / 1460 + doe / 36524 - doe / 146096) / 365
  let y := yoe + era * 400
  let doy := doe - (365 * yoe + yoe / 4 - yoe / 100)
  let mp := (5 * doy + 2) / 153
  let d := doy - (153 * mp + 2) / 5 + 1
  let m := if mp < 10 then mp + 3 else mp - 9
  ⟨if m ≤ 2 then y + 1 else y, m, d⟩

/-- Python `date.weekday()`: Monday = 0, ..., Sunday = 6. -/
def Date.weekday (dt : Date) : Nat :=
  (dt.toOrd + 2) % 7

/-- Python `date + timedelta(days := n)` (date part). -/
def Date.addDays (dt : Date) (n : Nat) : Date :=
  Date.ofOrd (dt.toOrd + n)

/-- Python `strftime` with format `%Y-%m-%d`. -/
def isoDate (dt : Date) : String :=
  pad4 dt.y ++ "-" ++ pad2 dt.m ++ "-" ++ pad2 dt.d

/-! ## SchedulingAdvisor._parse_datetime
(src/app/modules/advisors/scheduling_advisor.py, lines 222-293)

The reference timestamp is modelled as a `Date` (the source parses it from an
ISO string with `datetime.fromisoformat`; that parse and its `datetime.now()`
fallback are outside the model).  The source lowercases the text first, then
resolves the date and the time independently. -/

namespace SchedulingAdvisor

/-- The `day_names` dict of `_parse_datetime`, in its (insertion) iteration
order, with Python weekday numbers (Monday = 0). -/
def day_names : List (String × Nat) :=
  [("sunday", 6), ("monday", 0), ("tuesday", 1), ("wednesday", 2),
   ("thursday", 3), ("friday", 4), ("saturday", 5)]

/-- The first entry of `day_names` whose name occurs in the (lowercased) text;
models the `for day_name, weekday in day_names.items(): if day_name in text:
... break` loops. -/
def findDay (t : String) : Option Nat :=
  (day_names.find? fun p => containsStr t p.1).map (·.2)

/-- Date resolution of `_parse_datetime` on the already-lowercased text `t`.
Mirrors the source: `tomorrow` short-circuits; otherwise the `next`-branch or
the bare-weekday branch computes `days_ahead` as a Python int. -/
def parseDate (t : String) (ref : Date) : Option Date :=
  if containsStr t "tomorrow" then
    some (ref.addDays 1)
  else if containsStr t "next" then
    match findDay t with
    | some wd =>
      let da : Int := (wd : Int) - (ref.weekday : Int)
      let da := if da ≤ 0 then da + 7 else da
      let da := da + 7
      some (ref.addDays da.toNat)
    | none => none
  else
    match findDay t with
    | some wd =>
      let da : Int := (wd : Int) - (ref.weekday : Int)
      let da := if da ≤ 0 then da + 7 else da
      some (ref.addDays da.toNat)
    | none => none

/-- Decimal value of a list of digit characters (Python `int` on the digits
captured by the regex). -/
def digitsToNat (ds : List Char) : Nat :=
  ds.foldl (fun acc c => acc * 10 + (c.toNat - 48)) 0

/-- Greedy match of the regex `(\d{1,2})(?::(\d{2}))?\s*(am|pm|AM|PM)?` at a
position whose first character is a digit: returns the hour value, the minute
digits (defaulted to `"00"` like the `or` defaulting in the source), and the
am/pm marker if present.  The upper-case alternatives are dead because the
text was lowercased. -/
def matchTimeAt (l : List Char) : Nat × String × Option String :=
  let hourDigits := (l.take 2).takeWhile isDigitChar
  let rest := l.drop hourDigits.length
  let (minute, rest) :=
    match rest with
    | ':' :: m1 :: m2 :: r =>
      if isDigitChar m1 && isDigitChar m2 then (String.mk [m1, m2], r)
      else ("00", rest)
    | _ => ("00", rest)
  let rest := rest.dropWhile isPySpace
  let period :=
    if "am".toList.isPrefixOf rest then some "am"
    else if "pm".toList.isPrefixOf rest then some "pm"
    else none
  (digitsToNat hourDigits, minute, period)

/-- Model of `re.search` with the time pattern: the match starts at the first
digit of the text (the pattern always succeeds there). -/
def findTime : List Char → Option (Nat × String × Option String)
  | [] => none
  | c :: t => if isDigitChar c then some (matchTimeAt (c :: t)) else findTime t

/-- Time resolution of `_parse_datetime` on the already-lowercased text:
the pm/am hour adjustment and the `f"{hour:02d}:{minute}"` formatting. -/
def parseTime (t : List Char) : Option String :=
  match findTime t with
  | none => none
  | some (h, minute, period) =>
    let hour :=
      if period = some "pm" ∧ h < 12 then h + 12
      else if period = some "am" ∧ h = 12 then 0
      else h
    some (pad2 hour ++ ":" ++ minute)

/-- Model of `SchedulingAdvisor._parse_datetime(text, reference)`: returns the optional
ISO date string and the optional `HH:MM` time string. -/
def parse_datetime (text : String) (ref : Date) : Option String × Option String :=
  let t := lowerStr text
  ((parseDate t ref).map isoDate, parseTime t.toList)

/-- Hour adjustment exactly as the spec sentence of claim C7 words it, for
comparison with the code: pm adds 12 to the hour unless the hour is already
12; am with hour 12 maps the hour to 0.  (The code instead adds 12 only when
the hour is strictly below 12.) -/
def specHourMap (h : Nat) (period : Option String) : Nat :=
  if period = some "pm" ∧ h ≠ 12 then h + 12
  else if period = some "am" ∧ h = 12 then 0
  else h

/-- Spec-side formula of claim C6 for the number of days ahead a weekday name
resolves to: daysAhead = (targetWeekday - referenceWeekday) mod 7, advanced to
7 when it is 0, plus 7 more when the text contains "next" (both weekday
numbers are below 7, so the subtraction is taken mod 7 over naturals). -/
def specDaysAhead (wd refWd : Nat) (hasNext : Bool) : Nat :=
  let base := (wd + 7 - refWd) % 7
  let base := if base = 0 then 7 else base
  if hasNext then base + 7 else base

end SchedulingAdvisor

/-! ## The slot store

A `Slot` models one row of the `Schedule` table (src/app/modules/database.py)
or one document of the MongoDB `Availability` collection / `availability.json`
mock store (src/app/modules/schedule/db_manager.py).  The `date` field is the
day number of the ISO date (ISO strings compare lexicographically exactly as
their day numbers) and `time` is minutes since midnight (`HH:MM` strings
compare lexicographically exactly as their minute values).  A store state is
the list of rows/documents in table order. -/

structure Slot where
  id : Nat
  date : Nat
  time : Nat
  position : String
  available : Bool
deriving DecidableEq

/-- Does the slot have the requested (date, time, position) key
(the `WHERE date = ? AND time = ? AND position = ?` filter)? -/
def slotMatch (d t : Nat) (p : String) (s : Slot) : Bool :=
  s.date == d && s.time == t && s.position == p

/-- Result record of a booking operation (the returned dict). -/
structure BookResult where
  success : Bool
  message : String
deriving DecidableEq

/-- The failure message `f"Slot {date} at {time} is not available"`. -/
def notAvailableMsg (d t : Nat) : String :=
  "Slot " ++ toString d ++ " at " ++ toString t ++ " is not available"

/-- The success message `f"Successfully booked interview for {date} at {time}"`. -/
def bookedMsg (d t : Nat) : String :=
  "Successfully booked interview for " ++ toString d ++ " at " ++ toString t

/-- Absolute day distance `ABS(julianday(date) - julianday(target))`. -/
def dayDist (a b : Nat) : Nat :=
  if a ≤ b then b - a else a - b

/-- The `ORDER BY date_diff, time` sort key order of
`DatabaseManager.get_slots_near_date`: ascending absolute day distance to the
target date, ties broken by time of day ascending. -/
def nearLe (target : Nat) (a b : Slot) : Prop :=
  dayDist a.date target < dayDist b.date target ∨
    (dayDist a.date target = dayDist b.date target ∧ a.time ≤ b.time)

instance (target : Nat) : DecidableRel (nearLe target) := by
  unfold nearLe; infer_instance

instance (target : Nat) : IsTotal Slot (nearLe target) where
  total a b := by unfold nearLe; omega

instance (target : Nat) : IsTrans Slot (nearLe target) where
  trans a b c hab hbc := by unfold nearLe at *; omega

/-- The sort key order of the MongoDB manager fallback
`slots.sort(key = lambda x: abs(days))`: absolute day distance only, no tie
break (Python `list.sort` is stable, as is `List.insertionSort`). -/
def distLe (target : Nat) (a b : Slot) : Prop :=
  dayDist a.date target ≤ dayDist b.date target

instance (target : Nat) : DecidableRel (distLe target) := by
  unfold distLe; infer_instance

instance (target : Nat) : IsTotal Slot (distLe target) where
  total a b := by unfold distLe; omega

instance (target : Nat) : IsTrans Slot (distLe target) where
  trans a b c hab hbc := by unfold distLe at *; omega

namespace DatabaseManager

/-- Model of `DatabaseManager.check_slot_availability` (src/app/modules/database.py,
lines 62-74): `fetchone` on the key filter returns the first matching row in
table order; the result is whether that row exists and is available. -/
def check_slot_availability (store : List Slot) (d t : Nat) (p : String) : Bool :=
  match store.find? (slotMatch d t p) with
  | some s => s.available
  | none => false

/-- Model of `DatabaseManager.book_slot` (src/app/modules/database.py, lines 76-96):
check availability first; on success the SQL `UPDATE ... SET available = 0`
flips every row matching the key.  Returns the result record and the new
store state. -/
def book_slot (store : List Slot) (d t : Nat) (p : String) : BookResult × List Slot :=
  if check_slot_availability store d t p then
    (⟨true, bookedMsg d t⟩,
     store.map fun s => if slotMatch d t p s then { s with available := false } else s)
  else
    (⟨false, notAvailableMsg d t⟩, store)

/-- Model of `DatabaseManager.get_slots_near_date` (src/app/modules/database.py,
lines 98-114): available slots of the position, ordered by
`ORDER BY date_diff, time`, truncated by `LIMIT`. -/
def get_slots_near_date (store : List Slot) (target : Nat) (p : String) (limit : Nat) :
    List Slot :=
  ((store.filter fun s => s.available && s.position == p).insertionSort
      (nearLe target)).take limit

end DatabaseManager

namespace MongoDBManager

/-- Model of `MongoDBManager.check_slot_availability`, deterministic fallback path
(src/app/modules/schedule/db_manager.py, lines 104-121): linear scan of the
mock store, returning the `available` flag of the first matching document. -/
def check_slot_availability (store : List Slot) (d t : Nat) (p : String) : Bool :=
  match store.find? (slotMatch d t p) with
  | some s => s.available
  | none => false

/-- The fallback booking loop of `MongoDBManager.book_slot`: flip the first
matching document, or report that none was found. -/
def bookFirst (d t : Nat) (p : String) : List Slot → Option (List Slot)
  | [] => none
  | s :: rest =>
    if slotMatch d t p s then some ({ s with available := false } :: rest)
    else (bookFirst d t p rest).map (s :: ·)

/-- Model of `MongoDBManager.book_slot`, deterministic fallback path
(src/app/modules/schedule/db_manager.py, lines 123-154): check availability
first, then flip the first matching document. -/
def book_slot (store : List Slot) (d t : Nat) (p : String) : BookResult × List Slot :=
  if check_slot_availability store d t p then
    match bookFirst d t p store with
    | some store2 => (⟨true, bookedMsg d t⟩, store2)
    | none => (⟨false, "Slot not found"⟩, store)
  else
    (⟨false, notAvailableMsg d t⟩, store)

/-- Model of `MongoDBManager.get_slots_near_date`, deterministic fallback path
(src/app/modules/schedule/db_manager.py, lines 179-185): available slots of
the position, stably sorted by absolute day distance only, truncated. -/
def get_slots_near_date (store : List Slot) (target : Nat) (p : String) (limit : Nat) :
    List Slot :=
  ((store.filter fun s => s.available && s.position == p).insertionSort
      (distLe target)).take limit

end MongoDBManager

/-- Well-formedness of a store as the claim-side data model describes it: the
(date, time, position) key identifies at most one slot.  The seeded stores of
`init_database` and of the mock-data generator satisfy this; the schema does
not enforce it. -/
def KeyUnique (store : List Slot) : Prop :=
  store.Pairwise fun a b =>
    ¬ (a.date = b.date ∧ a.time = b.time ∧ a.position = b.position)

/-- A store with two slots sharing one (date, time, position) key: the first
unavailable, the second available. -/
def dupStore : List Slot :=
  [⟨1, 100, 540, "Python Dev", false⟩, ⟨2, 100, 540, "Python Dev", true⟩]

/-- A one-slot store used by concrete witnesses. -/
def unitStore : List Slot :=
  [⟨1, 100, 540, "Python Dev", true⟩]

/-- A store with two available slots at the same absolute day distance from
day 100, the later time of day stored first. -/
def tieStore : List Slot :=
  [⟨1, 100, 900, "Python Dev", true⟩, ⟨2, 100, 540, "Python Dev", true⟩]

/-! ## The orchestrator (src/app/modules/agents.py)

The mutable attributes of `RecruitmentBot` form `BotState`.  Every external LLM
capability consulted during one turn is an oracle input collected in
`TurnEnv`: the raw output (or exception) of the main action classifier, the
two potential `ExitAdvisor.should_exit` consultations, and the generated
response texts.  All post-processing of the raw classifier output, the
validation overrides, the routing, and the state mutation are translated from
the source. -/

/-- The mutable state of a `RecruitmentBot` (src/app/modules/agents.py,
lines 180-184). -/
structure BotState where
  is_interview_booked : Bool
  conversation_start : String
  screening_details_collected : Nat
  screening_complete : Bool
deriving DecidableEq

/-- Model of the `RecruitmentBot.__init__` state initialisation; `start` stands for the
`datetime.now().isoformat()` timestamp. -/
def initState (start : String) : BotState :=
  ⟨false, start, 0, false⟩

/-- Model of `RecruitmentBot.reset` (src/app/modules/agents.py, lines 317-322);
`start` is the fresh `datetime.now().isoformat()` timestamp. -/
def reset (start : String) : BotState :=
  ⟨false, start, 0, false⟩

/-- Oracle inputs for one `process_turn` call: everything the external LLM
capabilities return during the turn. -/
structure TurnEnv where
  /-- Raw output of the main action classifier chain, or the exception
  message when the call raises (`MainAgent.decide_action`). -/
  mainLLM : Except String String
  /-- What `ExitAdvisor.should_exit` returns if consulted to confirm a
  tentative END. -/
  exitOnEnd : Bool
  /-- What `ExitAdvisor.should_exit` returns if consulted by the
  disengagement escalation (a separate LLM call). -/
  exitOnDisengage : Bool
  /-- Response text of the info advisor, if consulted. -/
  infoResponse : String
  /-- Response text of `_generate_screening_response`, if consulted. -/
  screeningResponse : String
  /-- Response text returned by `SchedulingAdvisor.handle_scheduling`. -/
  schedulingResponse : String
  /-- Booked flag returned by `SchedulingAdvisor.handle_scheduling`. -/
  schedulingBooked : Bool
  /-- Text returned by `ExitAdvisor.get_exit_message`. -/
  exitMessage : String

/-- Model of `MainAgent.decide_action` (src/app/modules/agents.py, lines 135-149):
post-processing of the raw LLM output — strip/upper, exact match against the
three actions, substring fallback in the order CONTINUE, SCHEDULE, END,
default CONTINUE; an exception produces the string `"ERROR: " + str(e)`. -/
def decide_action (llm : Except String String) : String :=
  match llm with
  | Except.error e => "ERROR: " ++ e
  | Except.ok response =>
    let action := upperStr (trimStr response)
    if action = "CONTINUE" ∨ action = "SCHEDULE" ∨ action = "END" then action
    else if containsStr action "CONTINUE" then "CONTINUE"
    else if containsStr action "SCHEDULE" then "SCHEDULE"
    else if containsStr action "END" then "END"
    else "CONTINUE"

/-- Model of `RecruitmentBot._update_screening_progress` (src/app/modules/agents.py,
lines 259-277). -/
def update_screening (st : BotState) (user_input : String) : BotState :=
  let user_lower := lowerStr user_input
  let exp_keywords := ["year", "experience", "worked for", "been working"]
  let n1 :=
    if (exp_keywords.any fun kw => containsStr user_lower kw)
        && user_input.toList.any isDigitChar then
      st.screening_details_collected + 1
    else st.screening_details_collected
  let tech_keywords := ["python", "django", "flask", "aws", "docker", "sql",
    "fastapi", "react", "kubernetes", "cloud"]
  let n2 :=
    if tech_keywords.any fun kw => containsStr user_lower kw then n1 + 1 else n1
  { st with
    screening_details_collected := n2
    screening_complete := if n2 ≥ 2 then true else st.screening_complete }

/-- Model of `RecruitmentBot._is_disengaged` (src/app/modules/agents.py,
lines 279-293). -/
def is_disengaged (user_input history : String) : Bool :=
  let user_lower := trimStr (lowerStr user_input)
  let disengaged := ["nope", "no", "nah", "not interested", "stop",
    "leave me alone", "go away", "don\x27t want"]
  let firstRule :=
    if disengaged.any fun phrase => containsStr user_lower phrase then
      let neg_count := countStr (lowerStr history) "candidate: no" +
        countStr (lowerStr history) "candidate: nope"
      neg_count ≥ 2
    else false
  let refusals := ["don\x27t want to tell", "won\x27t tell", "not interested",
    "leave me alone"]
  firstRule || refusals.any fun phrase => containsStr user_lower phrase

/-- Model of `InfoAdvisor.needs_info_retrieval`
(src/app/modules/info_agent/info_agent.py, lines 157-170). -/
def needs_info_retrieval (user_message : String) : Bool :=
  let question_indicators := ["?", "what", "how", "which", "when", "where",
    "who", "why", "tell me", "explain", "describe", "requirements", "salary",
    "benefits", "stack", "technology", "company", "team", "responsibilities",
    "experience needed"]
  question_indicators.any fun ind => containsStr (lowerStr user_message) ind

/-- The validation layer of `RecruitmentBot.process_turn`
(src/app/modules/agents.py, lines 217-232): END confirmation, disengagement
escalation, screening gate — applied to the tentative action `a0`. -/
def validated_action (booked screeningComplete disengaged exit1 exit2 : Bool)
    (a0 : String) : String :=
  let a1 :=
    if a0 = "END" then
      if !exit1 then (if !booked then "CONTINUE" else a0) else a0
    else a0
  let a2 :=
    if a1 = "CONTINUE" ∧ disengaged then
      (if exit2 then "END" else a1)
    else a1
  if a2 = "SCHEDULE" ∧ !screeningComplete then "CONTINUE" else a2

/-- Model of `RecruitmentBot.process_turn` (src/app/modules/agents.py, lines 186-257):
returns the new bot state, the response text, and the action string. -/
def process_turn (st : BotState) (user_input history : String) (env : TurnEnv) :
    BotState × String × String :=
  let current_history := history ++ "\nCandidate: " ++ user_input
  let st1 := update_screening st user_input
  let a := validated_action st1.is_interview_booked st1.screening_complete
    (is_disengaged user_input current_history) env.exitOnEnd env.exitOnDisengage
    (decide_action env.mainLLM)
  if a = "CONTINUE" then
    (st1,
     if needs_info_retrieval user_input then env.infoResponse
     else env.screeningResponse,
     a)
  else if a = "SCHEDULE" then
    ({ st1 with is_interview_booked := env.schedulingBooked },
     env.schedulingResponse,
     if env.schedulingBooked then "END" else a)
  else if a = "END" then
    (st1, env.exitMessage, a)
  else
    (st1, "I\x27m sorry, I encountered an error. Please try again.", a)

/-- Does the turn dispatch to `SchedulingAdvisor.handle_scheduling`?  True
exactly when control reaches the `action == "SCHEDULE"` branch of
`process_turn`. -/
def invokes_scheduling (st : BotState) (user_input history : String)
    (env : TurnEnv) : Bool :=
  validated_action (update_screening st user_input).is_interview_booked
    (update_screening st user_input).screening_complete
    (is_disengaged user_input (history ++ "\nCandidate: " ++ user_input))
    env.exitOnEnd env.exitOnDisengage (decide_action env.mainLLM) = "SCHEDULE"

/-- A fixed oracle environment used by concrete witnesses: the main
classifier answers CONTINUE, the exit advisor declines both consultations,
scheduling books nothing. -/
def baseEnv : TurnEnv :=
  ⟨Except.ok "CONTINUE", false, false, "info reply", "screening reply",
   "scheduling reply", false, "closing line"⟩

/-- The bot states reachable from a fresh bot by any sequence of
`process_turn` calls and `reset`s. -/
inductive Reachable : BotState → Prop
  | init (start : String) : Reachable (initState start)
  | reset (st : BotState) (start : String) :
      Reachable st → Reachable (Recruiter.reset start)
  | step (st : BotState) (user_input history : String) (env : TurnEnv) :
      Reachable st → Reachable (process_turn st user_input history env).1

/-! ## Helper lemmas -/

example : isoDate (Date.addDays ⟨2024, 6, 10⟩ 1) = "2024-06-11" := by decide

example : Date.weekday ⟨2024, 6, 10⟩ = 0 := by decide

example : containsStr "next tuesday" "tuesday" = true := by decide

example : countStr "\ncandidate: not interested" "candidate: no" = 1 := by decide

example : lowerStr "Next Tuesday" = "next tuesday" := by decide

example : SchedulingAdvisor.parse_datetime "tomorrow" ⟨2024, 6, 10⟩ = (some "2024-06-11", none) := by decide

example : SchedulingAdvisor.parse_datetime "next tuesday" ⟨2024, 6, 10⟩ = (some "2024-06-18", none) := by decide

example : SchedulingAdvisor.parse_datetime "Tuesday" ⟨2024, 6, 10⟩ = (some "2024-06-11", none) := by decide

example : (SchedulingAdvisor.parse_datetime "10am" ⟨2024, 6, 10⟩).2 = some "10:00" := by decide

example : (SchedulingAdvisor.parse_datetime "2:30pm" ⟨2024, 6, 10⟩).2 = some "14:30" := by decide

example : (SchedulingAdvisor.parse_datetime "12am" ⟨2024, 6, 10⟩).2 = some "00:00" := by decide

example : (SchedulingAdvisor.parse_datetime "13pm" ⟨2024, 6, 10⟩).2 = some "13:00" := by decide

example : (SchedulingAdvisor.parse_datetime "I have 5 years" ⟨2024, 6, 10⟩).2 = some "05:00" := by decide

example : (SchedulingAdvisor.parse_datetime "room 99" ⟨2024, 6, 10⟩).2 = some "99:00" := by decide

example :
    (process_turn (initState "t0") "not interested" ""
      { baseEnv with exitOnDisengage := true }).2.2 = "END" := by decide

example :
    (process_turn (initState "t0") "hi" ""
      { baseEnv with mainLLM := Except.error "boom" }).2.2 = "ERROR: boom" := by decide

example :
    (process_turn (initState "t0") "I have 5 years of python" ""
      { baseEnv with mainLLM := Except.ok "SCHEDULE", schedulingBooked := true }).1
      = ⟨true, "t0", 2, true⟩ := by decide

example :
    (process_turn (initState "t0") "I like coding" ""
      { baseEnv with mainLLM := Except.ok "SCHEDULE" }).2.2 = "CONTINUE" := by decide


theorem update_screening_booked (st : BotState) (u : String) :
    (update_screening st u).is_interview_booked = st.is_interview_booked := rfl

theorem update_screening_complete_of (st : BotState) (u : String)
    (h : st.screening_complete = true) :
    (update_screening st u).screening_complete = true := by
  simp only [update_screening]
  split <;> simp [h]

theorem update_screening_count_le (st : BotState) (u : String) :
    st.screening_details_collected ≤ (update_screening st u).screening_details_collected := by
  simp only [update_screening]
  split_ifs <;> omega

theorem process_turn_state_fields (st : BotState) (u h : String) (env : TurnEnv) :
    (process_turn st u h env).1.screening_complete =
      (update_screening st u).screening_complete ∧
    (process_turn st u h env).1.screening_details_collected =
      (update_screening st u).screening_details_collected := by
  simp only [process_turn]
  split_ifs <;> simp

theorem validated_action_of_other (b sc dis e1 e2 : Bool) (a0 : String)
    (h0 : a0 ≠ "END") (h1 : a0 ≠ "CONTINUE") (h2 : a0 ≠ "SCHEDULE") :
    validated_action b sc dis e1 e2 a0 = a0 := by
  simp [validated_action, h0, h1, h2]

theorem validated_action_schedule_iff (b sc dis e1 e2 : Bool) (a0 : String) :
    validated_action b sc dis e1 e2 a0 = "SCHEDULE" ↔ a0 = "SCHEDULE" ∧ sc = true := by
  by_cases h2 : a0 = "SCHEDULE"
  · subst h2
    cases b <;> cases sc <;> cases dis <;> cases e1 <;> cases e2 <;> decide
  · by_cases h0 : a0 = "END"
    · subst h0
      cases b <;> cases sc <;> cases dis <;> cases e1 <;> cases e2 <;> decide
    · by_cases h1 : a0 = "CONTINUE"
      · subst h1
        cases b <;> cases sc <;> cases dis <;> cases e1 <;> cases e2 <;> decide
      · rw [validated_action_of_other b sc dis e1 e2 a0 h0 h1 h2]
        simp [h2]

theorem validated_action_gate (b dis e1 e2 : Bool) :
    validated_action b false dis e1 e2 "SCHEDULE" = "CONTINUE" := by
  cases b <;> cases dis <;> cases e1 <;> cases e2 <;> decide

theorem process_turn_action_eq (st : BotState) (u h : String) (env : TurnEnv) :
    (process_turn st u h env).2.2 =
      if validated_action (update_screening st u).is_interview_booked
          (update_screening st u).screening_complete
          (is_disengaged u (h ++ "\nCandidate: " ++ u))
          env.exitOnEnd env.exitOnDisengage (decide_action env.mainLLM) = "SCHEDULE"
          ∧ env.schedulingBooked = true
      then "END"
      else validated_action (update_screening st u).is_interview_booked
          (update_screening st u).screening_complete
          (is_disengaged u (h ++ "\nCandidate: " ++ u))
          env.exitOnEnd env.exitOnDisengage (decide_action env.mainLLM) := by
  simp only [process_turn]
  split_ifs with h1 h2 h3 h4 h5 h6 <;> simp_all

/-! ## Claim theorems -/

/-- C1: if the tentative action of the primary classifier is SCHEDULE but the
screening-complete flag (as read by the override rule, i.e. after this turn's
screening update) is false, `process_turn` resolves the final action to
CONTINUE, and the SchedulingAdvisor is never dispatched in such a turn,
whatever the tentative action was. -/
theorem C1_screening_gate (st : BotState) (u h : String) (env : TurnEnv)
    (hsc : (update_screening st u).screening_complete = false) :
    (decide_action env.mainLLM = "SCHEDULE" →
      (process_turn st u h env).2.2 = "CONTINUE")
    ∧ invokes_scheduling st u h env = false := by
  constructor
  · intro ha
    rw [process_turn_action_eq, ha, hsc, validated_action_gate]
    simp
  · unfold invokes_scheduling
    rw [hsc]
    simp only [decide_eq_false_iff_not]
    intro hcontra
    exact absurd (validated_action_schedule_iff _ _ _ _ _ _ |>.mp hcontra).2 (by simp)

/-- C1 witness: with an incomplete screening state, a SCHEDULE verdict of the
primary classifier resolves to CONTINUE and the scheduler is not invoked. -/
theorem C1_screening_gate_witness :
    (process_turn (initState "t0") "I like coding" ""
      { baseEnv with mainLLM := Except.ok "SCHEDULE" }).2.2 = "CONTINUE"
    ∧ invokes_scheduling (initState "t0") "I like coding" ""
      { baseEnv with mainLLM := Except.ok "SCHEDULE" } = false := by
  have h := C1_screening_gate (initState "t0") "I like coding" ""
    { baseEnv with mainLLM := Except.ok "SCHEDULE" } (by decide)
  exact ⟨h.1 (by decide), h.2⟩

/-- C4: in every bot state reachable by any sequence of turns and resets,
a booked interview implies that screening is complete — the orchestrator gate
makes a booking impossible before screening passes. -/
theorem C4_booked_implies_screened (st : BotState) (hr : Reachable st) :
    st.is_interview_booked = true → st.screening_complete = true := by
  induction hr with
  | init start => intro hb; simp [initState] at hb
  | reset st start _ _ => intro hb; simp [Recruiter.reset] at hb
  | step st u h env _ ih =>
    simp only [process_turn]
    split_ifs with h1 h2 h3 h4 h5 <;> intro hb
    · exact update_screening_complete_of st u (ih (by rwa [update_screening_booked] at hb))
    · exact update_screening_complete_of st u (ih (by rwa [update_screening_booked] at hb))
    · exact (validated_action_schedule_iff _ _ _ _ _ _ |>.mp h3).2
    · exact (validated_action_schedule_iff _ _ _ _ _ _ |>.mp h3).2
    · exact update_screening_complete_of st u (ih (by rwa [update_screening_booked] at hb))
    · exact update_screening_complete_of st u (ih (by rwa [update_screening_booked] at hb))

/-- C4 witness: a concrete reachable booked state, produced by one turn that
completes screening and books, satisfies the invariant. -/
theorem C4_booked_implies_screened_witness :
    (process_turn (initState "t0") "I have 5 years of python" ""
      { baseEnv with mainLLM := Except.ok "SCHEDULE", schedulingBooked := true
        }).1.screening_complete = true :=
  C4_booked_implies_screened _
    (Reachable.step _ _ _ _ (Reachable.init "t0")) (by decide)

/-- C5: the screening-complete flag is monotonic across `process_turn` (once
true it stays true for any participant input and oracle behaviour), the signal
counter never decreases, and only the explicit `reset` operation returns the
flag to false (a fresh reset state has the flag cleared). -/
theorem C5_screening_monotonic (st : BotState) (u h start : String) (env : TurnEnv) :
    (st.screening_complete = true →
      (process_turn st u h env).1.screening_complete = true)
    ∧ st.screening_details_collected ≤
        (process_turn st u h env).1.screening_details_collected
    ∧ (Recruiter.reset start).screening_complete = false := by
  refine ⟨?_, ?_, rfl⟩
  · intro hc
    rw [(process_turn_state_fields st u h env).1]
    exact update_screening_complete_of st u hc
  · rw [(process_turn_state_fields st u h env).2]
    exact update_screening_count_le st u

/-- C5 witness: a state with completed screening keeps the flag after a
further turn. -/
theorem C5_screening_monotonic_witness :
    (process_turn ⟨false, "t0", 2, true⟩ "hello" "" baseEnv).1.screening_complete
      = true :=
  (C5_screening_monotonic ⟨false, "t0", 2, true⟩ "hello" "" "t1" baseEnv).1 rfl

/-- C9: claim-contradicting behaviour of the code at a failing input — when
the main action classifier raises an exception (here with message "boom"),
`MainAgent.decide_action` returns the out-of-vocabulary action string
"ERROR: boom" instead of the documented CONTINUE fallback, and `process_turn`
surfaces that action together with an error message to the user. -/
theorem C9_error_action_surfaced :
    decide_action (Except.error "boom") = "ERROR: boom"
    ∧ (process_turn (initState "t0") "hi" ""
        { baseEnv with mainLLM := Except.error "boom" }).2.2 = "ERROR: boom"
    ∧ (process_turn (initState "t0") "hi" ""
        { baseEnv with mainLLM := Except.error "boom" }).2.1 =
        "I\x27m sorry, I encountered an error. Please try again."
    ∧ ¬ ("ERROR: boom" = "CONTINUE" ∨ "ERROR: boom" = "SCHEDULE"
          ∨ "ERROR: boom" = "END") := by decide

theorem isDigitChar_lowerChar (c : Char) :
    isDigitChar (lowerChar c) = isDigitChar c := by
  unfold lowerChar
  split
  · rename_i hc
    have hv : (c.toNat + 32).isValidChar := Or.inl (by omega)
    have ht : (Char.ofNat (c.toNat + 32)).toNat = c.toNat + 32 := by
      rw [Char.ofNat, dif_pos hv]; rfl
    simp only [isDigitChar, ht]
    rw [Bool.eq_iff_iff]
    simp only [Bool.and_eq_true, decide_eq_true_eq]
    omega
  · rfl

theorem findTime_eq_none_iff (l : List Char) :
    SchedulingAdvisor.findTime l = none ↔ ∀ c ∈ l, isDigitChar c = false := by
  induction l with
  | nil => simp [SchedulingAdvisor.findTime]
  | cons c t ih =>
    cases hc : isDigitChar c with
    | true => simp [SchedulingAdvisor.findTime, hc]
    | false => simp [SchedulingAdvisor.findTime, hc, ih]

theorem parseTime_eq_none_iff (l : List Char) :
    SchedulingAdvisor.parseTime l = none ↔ SchedulingAdvisor.findTime l = none := by
  unfold SchedulingAdvisor.parseTime
  cases h : SchedulingAdvisor.findTime l with
  | none => simp
  | some v => obtain ⟨hh, mm, pp⟩ := v; simp

/-- C10: the time component of `_parse_datetime` is null exactly when the text
contains no (ASCII) digit at all; any 1–2 digit numeral produces a time even
when it is no time expression and without range-checking the hour: the text
"I have 5 years" yields time "05:00" and a text containing "99" yields
"99:00". -/
theorem C10_time_from_any_numeral :
    (∀ (text : String) (ref : Date),
        ((SchedulingAdvisor.parse_datetime text ref).2 = none ↔
          ∀ c ∈ text.toList, isDigitChar c = false))
    ∧ (SchedulingAdvisor.parse_datetime "I have 5 years" ⟨2024, 6, 10⟩).2 =
        some "05:00"
    ∧ (SchedulingAdvisor.parse_datetime "room 99" ⟨2024, 6, 10⟩).2 =
        some "99:00" := by
  refine ⟨fun text ref => ?_, by decide, by decide⟩
  show SchedulingAdvisor.parseTime (lowerStr text).toList = none ↔ _
  rw [parseTime_eq_none_iff, findTime_eq_none_iff]
  have hl : (lowerStr text).toList = text.toList.map lowerChar := rfl
  rw [hl]
  constructor
  · intro hall c hcmem
    have hmem := List.mem_map_of_mem lowerChar hcmem
    have := hall (lowerChar c) hmem
    rwa [isDigitChar_lowerChar] at this
  · intro hall c hcmem
    obtain ⟨d, hd, rfl⟩ := List.mem_map.mp hcmem
    rw [isDigitChar_lowerChar]
    exact hall d hd

/-- C7 counterexample: at the input "13pm" the regex matches hour 13 with a pm
marker; the claimed rule (pm adds 12 to the hour unless the hour is already
12, `specHourMap`) demands "25:00", but `_parse_datetime` adds 12 only for
hours strictly below 12 and returns "13:00". -/
theorem C7_pm_rule_counterexample :
    SchedulingAdvisor.findTime (lowerStr "13pm").toList = some (13, "00", some "pm")
    ∧ (SchedulingAdvisor.parse_datetime "13pm" ⟨2024, 6, 10⟩).2 = some "13:00"
    ∧ pad2 (SchedulingAdvisor.specHourMap 13 (some "pm")) ++ ":" ++ "00" = "25:00"
    ∧ (SchedulingAdvisor.parse_datetime "13pm" ⟨2024, 6, 10⟩).2 ≠
        some (pad2 (SchedulingAdvisor.specHourMap 13 (some "pm")) ++ ":" ++ "00") := by
  decide

/-- C7 (amended): for every text in which the time regex matches hour `h`,
minute digits `mn` (defaulted to "00" when absent) and optional am/pm marker
`p`, the time component is `HH:MM` with the hour mapped by: pm adds 12 to the
hour only when the hour is strictly less than 12 (hours of 12 and above are
left unchanged); am with hour 12 maps the hour to 0.  In particular "10am"
yields "10:00", "2:30pm" yields "14:30" and "12am" yields "00:00". -/
theorem C7_time_resolution_amended :
    (∀ (text : String) (ref : Date) (h : Nat) (mn : String) (p : Option String),
        SchedulingAdvisor.findTime (lowerStr text).toList = some (h, mn, p) →
        (SchedulingAdvisor.parse_datetime text ref).2 =
          some (pad2 (if p = some "pm" ∧ h < 12 then h + 12
                      else if p = some "am" ∧ h = 12 then 0
                      else h) ++ ":" ++ mn))
    ∧ (SchedulingAdvisor.parse_datetime "10am" ⟨2024, 6, 10⟩).2 = some "10:00"
    ∧ (SchedulingAdvisor.parse_datetime "2:30pm" ⟨2024, 6, 10⟩).2 = some "14:30"
    ∧ (SchedulingAdvisor.parse_datetime "12am" ⟨2024, 6, 10⟩).2 = some "00:00" := by
  refine ⟨fun text ref h mn p hf => ?_, by decide, by decide, by decide⟩
  show SchedulingAdvisor.parseTime (lowerStr text).toList = _
  unfold SchedulingAdvisor.parseTime
  rw [hf]

/-- C7 witness: the general mapping applied to the concrete input "7pm". -/
theorem C7_time_resolution_amended_witness :
    (SchedulingAdvisor.parse_datetime "7pm" ⟨2024, 6, 10⟩).2 = some "19:00" := by
  have h := C7_time_resolution_amended.1 "7pm" ⟨2024, 6, 10⟩ 7 "00" (some "pm")
    (by decide)
  exact h.trans (by decide)

theorem findDay_eq (t nm : String) (wd : Nat)
    (hmem : (nm, wd) ∈ SchedulingAdvisor.day_names)
    (hc : containsStr t nm = true)
    (hothers : ∀ p ∈ SchedulingAdvisor.day_names, p.1 ≠ nm →
      containsStr t p.1 = false) :
    SchedulingAdvisor.findDay t = some wd := by
  fin_cases hmem <;>
    simp_all [SchedulingAdvisor.findDay, SchedulingAdvisor.day_names, List.find?]

theorem day_names_wd_lt (nm : String) (wd : Nat)
    (hmem : (nm, wd) ∈ SchedulingAdvisor.day_names) : wd < 7 := by
  fin_cases hmem <;> decide

/-- C6: the date component of `_parse_datetime`.  If the text contains
"tomorrow", the date is the reference date plus one day, regardless of any
weekday names.  Otherwise, when exactly one weekday name occurs in the text,
the resolved date is the reference date advanced by
daysAhead = (targetWeekday - referenceWeekday) mod 7, advanced to 7 when that
is 0 (a bare weekday name never resolves to the reference day itself), plus a
further 7 days when the text also contains "next" (`specDaysAhead`). -/
theorem C6_date_resolution (text : String) (ref : Date) :
    (containsStr (lowerStr text) "tomorrow" = true →
      (SchedulingAdvisor.parse_datetime text ref).1 =
        some (isoDate (ref.addDays 1)))
    ∧ (∀ nm wd,
        containsStr (lowerStr text) "tomorrow" = false →
        (nm, wd) ∈ SchedulingAdvisor.day_names →
        containsStr (lowerStr text) nm = true →
        (∀ p ∈ SchedulingAdvisor.day_names, p.1 ≠ nm →
          containsStr (lowerStr text) p.1 = false) →
        (SchedulingAdvisor.parse_datetime text ref).1 =
          some (isoDate (ref.addDays
            (SchedulingAdvisor.specDaysAhead wd ref.weekday
              (containsStr (lowerStr text) "next"))))) := by
  constructor
  · intro htom
    show (SchedulingAdvisor.parseDate (lowerStr text) ref).map isoDate = _
    simp [SchedulingAdvisor.parseDate, htom]
  · intro nm wd htom hmem hc hothers
    have hfd : SchedulingAdvisor.findDay (lowerStr text) = some wd :=
      findDay_eq _ _ _ hmem hc hothers
    have hwd : wd < 7 := day_names_wd_lt _ _ hmem
    have hrwd : ref.weekday < 7 := Nat.mod_lt _ (by decide)
    show (SchedulingAdvisor.parseDate (lowerStr text) ref).map isoDate = _
    cases hnext : containsStr (lowerStr text) "next" with
    | true =>
      simp only [SchedulingAdvisor.parseDate, htom, hnext, hfd,
        Bool.false_eq_true, if_false, if_true]
      have heq : ∀ rwd : Nat, rwd < 7 →
          (((if ((wd : Int) - (rwd : Int) ≤ 0)
              then (wd : Int) - (rwd : Int) + 7
              else (wd : Int) - (rwd : Int)) + 7)).toNat =
            SchedulingAdvisor.specDaysAhead wd rwd true := by
        intro rwd hr
        interval_cases wd <;> interval_cases rwd <;> decide
      rw [heq ref.weekday hrwd]
      rfl
    | false =>
      simp only [SchedulingAdvisor.parseDate, htom, hnext, hfd,
        Bool.false_eq_true, if_false, if_true]
      have heq : ∀ rwd : Nat, rwd < 7 →
          ((if ((wd : Int) - (rwd : Int) ≤ 0)
              then (wd : Int) - (rwd : Int) + 7
              else (wd : Int) - (rwd : Int))).toNat =
            SchedulingAdvisor.specDaysAhead wd rwd false := by
        intro rwd hr
        interval_cases wd <;> interval_cases rwd <;> decide
      rw [heq ref.weekday hrwd]
      rfl

/-- C6 witness: "tomorrow" with reference 2024-06-10 resolves to 2024-06-11,
and "next tuesday" with reference Monday 2024-06-10 resolves to 2024-06-18,
the Tuesday of the following week. -/
theorem C6_date_resolution_witness :
    (SchedulingAdvisor.parse_datetime "tomorrow" ⟨2024, 6, 10⟩).1 =
      some "2024-06-11"
    ∧ (SchedulingAdvisor.parse_datetime "next tuesday" ⟨2024, 6, 10⟩).1 =
      some "2024-06-18" := by
  constructor
  · exact ((C6_date_resolution "tomorrow" ⟨2024, 6, 10⟩).1 (by decide)).trans
      (by decide)
  · exact ((C6_date_resolution "next tuesday" ⟨2024, 6, 10⟩).2 "tuesday" 1
      (by decide) (by decide) (by decide) (by decide)).trans (by decide)

/-- C2 counterexample: on input "not interested" with tentative action
CONTINUE, no booked interview, and the ExitAdvisor agreeing on the
disengagement consultation, the turn returns END — END is emitted although
the primary classifier did not vote END and no interview is booked, via the
disengagement escalation, contradicting the claimed two-signal-only rule. -/
theorem C2_end_agreement_counterexample :
    decide_action (Except.ok "CONTINUE") = "CONTINUE"
    ∧ (initState "t0").is_interview_booked = false
    ∧ (process_turn (initState "t0") "not interested" ""
        { baseEnv with exitOnDisengage := true }).2.2 = "END"
    ∧ (process_turn (initState "t0") "not interested" ""
        { baseEnv with exitOnDisengage := true }).1.is_interview_booked
        = false := by
  decide

/-- C2 (amended): `process_turn` returns END exactly when (1) the tentative
action is END and the ExitAdvisor confirms or an interview is already booked;
or (2) the action resolved to CONTINUE — directly, or via the END downgrade
when the ExitAdvisor disagrees and nothing is booked — while the
disengagement heuristic fires and the ExitAdvisor (consulted again) agrees;
or (3) the tentative action is SCHEDULE, screening is complete, and the
scheduling subsystem books an interview this turn.  In every other case a
tentative END is downgraded to CONTINUE. -/
theorem C2_end_conditions_amended (st : BotState) (u h : String) (env : TurnEnv) :
    (process_turn st u h env).2.2 = "END" ↔
      (decide_action env.mainLLM = "END"
        ∧ (env.exitOnEnd = true ∨ st.is_interview_booked = true))
      ∨ ((decide_action env.mainLLM = "CONTINUE"
          ∨ (decide_action env.mainLLM = "END" ∧ env.exitOnEnd = false
              ∧ st.is_interview_booked = false))
          ∧ is_disengaged u (h ++ "\nCandidate: " ++ u) = true
          ∧ env.exitOnDisengage = true)
      ∨ (decide_action env.mainLLM = "SCHEDULE"
          ∧ (update_screening st u).screening_complete = true
          ∧ env.schedulingBooked = true) := by
  rw [process_turn_action_eq, update_screening_booked st u]
  generalize hA : decide_action env.mainLLM = a0
  generalize hB : st.is_interview_booked = b
  generalize hS : (update_screening st u).screening_complete = sc
  generalize hD : is_disengaged u (h ++ "\nCandidate: " ++ u) = dis
  generalize hE1 : env.exitOnEnd = e1
  generalize hE2 : env.exitOnDisengage = e2
  generalize hK : env.schedulingBooked = bk
  by_cases hSch : a0 = "SCHEDULE"
  · subst hSch
    cases b <;> cases sc <;> cases dis <;> cases e1 <;> cases e2 <;> cases bk <;>
      decide
  · by_cases hEnd : a0 = "END"
    · subst hEnd
      cases b <;> cases sc <;> cases dis <;> cases e1 <;> cases e2 <;> cases bk <;>
        decide
    · by_cases hCont : a0 = "CONTINUE"
      · subst hCont
        cases b <;> cases sc <;> cases dis <;> cases e1 <;> cases e2 <;>
          cases bk <;> decide
      · rw [validated_action_of_other b sc dis e1 e2 a0 hEnd hCont hSch]
        simp [hEnd, hCont, hSch]

theorem no_match_tail (d t : Nat) (p : String) (s : Slot) (rest : List Slot)
    (hU : KeyUnique (s :: rest)) (hm : slotMatch d t p s = true) :
    ∀ b ∈ rest, slotMatch d t p b = false := by
  intro b hb
  have hpair := (List.pairwise_cons.mp hU).1 b hb
  simp only [slotMatch, Bool.and_eq_true, beq_iff_eq] at hm
  obtain ⟨⟨h1, h2⟩, h3⟩ := hm
  by_contra hcon
  rw [Bool.not_eq_false] at hcon
  simp only [slotMatch, Bool.and_eq_true, beq_iff_eq] at hcon
  obtain ⟨⟨g1, g2⟩, g3⟩ := hcon
  exact hpair ⟨h1.trans g1.symm, h2.trans g2.symm, h3.trans g3.symm⟩

theorem map_flip_no_match (d t : Nat) (p : String) (l : List Slot) :
    (∀ b ∈ l, slotMatch d t p b = false) →
      (l.map fun s => if slotMatch d t p s then { s with available := false }
        else s) = l := by
  induction l with
  | nil => intro _; rfl
  | cons s rest ih =>
    intro hl
    have hs := hl s (List.mem_cons_self s rest)
    simp [hs, ih fun b hb => hl b (List.mem_cons_of_mem s hb)]

theorem check_slot_availability_iff (d t : Nat) (p : String) (store : List Slot)
    (hU : KeyUnique store) :
    DatabaseManager.check_slot_availability store d t p = true ↔
      ∃ s ∈ store, slotMatch d t p s = true ∧ s.available = true := by
  induction store with
  | nil => simp [DatabaseManager.check_slot_availability]
  | cons s rest ih =>
    cases hm : slotMatch d t p s with
    | true =>
      have hnone := no_match_tail d t p s rest hU hm
      simp only [DatabaseManager.check_slot_availability, List.find?, hm]
      constructor
      · intro hav; exact ⟨s, List.mem_cons_self s rest, hm, hav⟩
      · rintro ⟨b, hb, hbm, hbav⟩
        rcases List.mem_cons.mp hb with rfl | hbrest
        · exact hbav
        · exact absurd hbm (by simp [hnone b hbrest])
    | false =>
      have ih2 := ih (List.Pairwise.of_cons hU)
      simp only [DatabaseManager.check_slot_availability, List.find?, hm] at ih2 ⊢
      rw [ih2]
      constructor
      · rintro ⟨b, hb, hbm, hbav⟩
        exact ⟨b, List.mem_cons_of_mem s hb, hbm, hbav⟩
      · rintro ⟨b, hb, hbm, hbav⟩
        rcases List.mem_cons.mp hb with rfl | hbrest
        · exact absurd hbm (by simp [hm])
        · exact ⟨b, hbrest, hbm, hbav⟩

theorem book_success_structure (d t : Nat) (p : String) (store : List Slot)
    (hU : KeyUnique store)
    (hchk : DatabaseManager.check_slot_availability store d t p = true) :
    ∃ i, ∃ hi : i < store.length,
      slotMatch d t p (store.get ⟨i, hi⟩) = true
      ∧ (store.get ⟨i, hi⟩).available = true
      ∧ (store.map fun s => if slotMatch d t p s then { s with available := false }
          else s) = store.set i { store.get ⟨i, hi⟩ with available := false }
      ∧ MongoDBManager.bookFirst d t p store
          = some (store.set i { store.get ⟨i, hi⟩ with available := false }) := by
  induction store with
  | nil => simp [DatabaseManager.check_slot_availability] at hchk
  | cons s rest ih =>
    cases hm : slotMatch d t p s with
    | true =>
      have hav : s.available = true := by
        simpa [DatabaseManager.check_slot_availability, List.find?, hm] using hchk
      have hnone := no_match_tail d t p s rest hU hm
      refine ⟨0, Nat.succ_pos _, ?_, ?_, ?_, ?_⟩
      · simpa using hm
      · simpa using hav
      · simp only [List.map, hm, if_true, List.set, List.get]
        rw [map_flip_no_match d t p rest hnone]
      · simp [MongoDBManager.bookFirst, hm, List.set, List.get]
    | false =>
      have hchk2 : DatabaseManager.check_slot_availability rest d t p = true := by
        simpa [DatabaseManager.check_slot_availability, List.find?, hm] using hchk
      obtain ⟨i, hi, h1, h2, h3, h4⟩ := ih (List.Pairwise.of_cons hU) hchk2
      refine ⟨i + 1, Nat.succ_lt_succ hi, ?_, ?_, ?_, ?_⟩
      · simpa using h1
      · simpa using h2
      · simp only [List.map, hm, if_false, List.set, List.get]
        simp only [Bool.false_eq_true, if_false]
        rw [h3]
      · simp only [MongoDBManager.bookFirst, hm, Bool.false_eq_true, if_false,
          h4, Option.map, List.set, List.get]

/-- C3 counterexample: in a store where two slots share the requested
(date, time, position) key — the first row unavailable, the second available —
both `book_slot` implementations fail (the availability check reads only the
first matching row), although a matching available slot exists, refuting the
claimed "success iff a slot with that key exists and is available" for
arbitrary store states. -/
theorem C3_booking_counterexample :
    (DatabaseManager.book_slot dupStore 100 540 "Python Dev").1.success = false
    ∧ (MongoDBManager.book_slot dupStore 100 540 "Python Dev").1.success = false
    ∧ (dupStore.any fun s => slotMatch 100 540 "Python Dev" s && s.available)
        = true := by
  decide

/-- C3 (amended): for every store in which the (date, time, position) key
identifies at most one slot, booking succeeds if and only if a slot with the
requested key exists and is currently available; on success both
implementations return the same new store, which is the old store with
exactly that one slot flipped from available to unavailable (an update at one
index); on failure both leave the store unchanged and return an explicit
"is not available" result. -/
theorem C3_booking_amended (store : List Slot) (d t : Nat) (p : String)
    (hU : KeyUnique store) :
    ((DatabaseManager.book_slot store d t p).1.success = true ↔
        ∃ s ∈ store, slotMatch d t p s = true ∧ s.available = true)
    ∧ (MongoDBManager.book_slot store d t p).1.success
        = (DatabaseManager.book_slot store d t p).1.success
    ∧ ((DatabaseManager.book_slot store d t p).1.success = true →
        ∃ i, ∃ hi : i < store.length,
          slotMatch d t p (store.get ⟨i, hi⟩) = true
          ∧ (store.get ⟨i, hi⟩).available = true
          ∧ (DatabaseManager.book_slot store d t p).2 =
              store.set i { store.get ⟨i, hi⟩ with available := false }
          ∧ (MongoDBManager.book_slot store d t p).2 =
              store.set i { store.get ⟨i, hi⟩ with available := false })
    ∧ ((DatabaseManager.book_slot store d t p).1.success = false →
        (DatabaseManager.book_slot store d t p).2 = store
        ∧ (MongoDBManager.book_slot store d t p).2 = store
        ∧ (DatabaseManager.book_slot store d t p).1.message = notAvailableMsg d t
        ∧ (MongoDBManager.book_slot store d t p).1.message
            = notAvailableMsg d t) := by
  have hck := check_slot_availability_iff d t p store hU
  cases hchk : DatabaseManager.check_slot_availability store d t p with
  | false =>
    have hchk2 : MongoDBManager.check_slot_availability store d t p = false := hchk
    have hnone : ¬ ∃ s ∈ store, slotMatch d t p s = true ∧ s.available = true := by
      rw [← hck, hchk]; simp
    refine ⟨?_, ?_, ?_, ?_⟩
    · simp only [DatabaseManager.book_slot, hchk, Bool.false_eq_true, if_false]
      simpa using hnone
    · simp [DatabaseManager.book_slot, MongoDBManager.book_slot, hchk, hchk2]
    · intro hsucc
      simp [DatabaseManager.book_slot, hchk] at hsucc
    · intro _
      refine ⟨?_, ?_, ?_, ?_⟩ <;>
        simp [DatabaseManager.book_slot, MongoDBManager.book_slot, hchk, hchk2]
  | true =>
    have hchk2 : MongoDBManager.check_slot_availability store d t p = true := hchk
    obtain ⟨i, hi, h1, h2, h3, h4⟩ := book_success_structure d t p store hU hchk
    refine ⟨?_, ?_, ?_, ?_⟩
    · simp only [DatabaseManager.book_slot, hchk, if_true]
      simpa using hck.mp hchk
    · simp [DatabaseManager.book_slot, MongoDBManager.book_slot, hchk, hchk2, h4]
    · intro _
      refine ⟨i, hi, h1, h2, ?_, ?_⟩
      · simp [DatabaseManager.book_slot, hchk, h3]
      · simp [MongoDBManager.book_slot, hchk2, h4]
    · intro hfail
      simp [DatabaseManager.book_slot, hchk] at hfail

/-- C3 witness: in a single-slot store with an available matching slot,
booking succeeds. -/
theorem C3_booking_amended_witness :
    (DatabaseManager.book_slot unitStore 100 540 "Python Dev").1.success
      = true := by
  exact (C3_booking_amended unitStore 100 540 "Python Dev"
    (by simp [KeyUnique, unitStore])).1.mpr
    ⟨⟨1, 100, 540, "Python Dev", true⟩, by simp [unitStore], by decide, rfl⟩

/-- C8 counterexample: in a store holding two available slots at the same
absolute day distance from the target, the later time of day stored first,
the MongoDB manager fallback returns them in store order — the claimed
ranking (ties broken by time of day ascending) is violated: no
(distance, time)-sorted reordering of the candidates has this output as its
prefix.  The SQLite manager, by contrast, does break the tie by time. -/
theorem C8_near_date_counterexample :
    MongoDBManager.get_slots_near_date tieStore 100 "Python Dev" 3 =
      [⟨1, 100, 900, "Python Dev", true⟩, ⟨2, 100, 540, "Python Dev", true⟩]
    ∧ DatabaseManager.get_slots_near_date tieStore 100 "Python Dev" 3 =
      [⟨2, 100, 540, "Python Dev", true⟩, ⟨1, 100, 900, "Python Dev", true⟩]
    ∧ ¬ ∃ full : List Slot,
        full.Perm (tieStore.filter fun s => s.available && s.position == "Python Dev")
        ∧ full.Sorted (nearLe 100)
        ∧ MongoDBManager.get_slots_near_date tieStore 100 "Python Dev" 3
            = full.take 3 := by
  refine ⟨by decide, by decide, ?_⟩
  rintro ⟨full, hperm, hsort, heq⟩
  have hlen : full.length = 2 := by
    rw [hperm.length_eq]; decide
  have hfull : full =
      [(⟨1, 100, 900, "Python Dev", true⟩ : Slot), ⟨2, 100, 540, "Python Dev", true⟩] := by
    have htake : full.take 3 = full := List.take_of_length_le (by omega)
    rw [htake] at heq
    rw [← heq]; decide
  rw [hfull] at hsort
  have hle := (List.sorted_cons.mp hsort).1 ⟨2, 100, 540, "Python Dev", true⟩
    (List.mem_cons_self _ _)
  revert hle
  decide

/-- C8 (amended): both implementations return the first `limit` elements of a
stable reordering of exactly the available slots for the position; the SQLite
`DatabaseManager` orders by ascending absolute day distance to the target
with ties broken by time of day ascending (`nearLe`), while the MongoDB
manager fallback orders by absolute day distance only, keeping store order on
ties (`distLe`). -/
theorem C8_near_date_amended (store : List Slot) (target : Nat) (p : String)
    (limit : Nat) :
    (∃ full : List Slot,
        full.Perm (store.filter fun s => s.available && s.position == p)
        ∧ full.Sorted (nearLe target)
        ∧ DatabaseManager.get_slots_near_date store target p limit
            = full.take limit)
    ∧ (∃ fullM : List Slot,
        fullM.Perm (store.filter fun s => s.available && s.position == p)
        ∧ fullM.Sorted (distLe target)
        ∧ MongoDBManager.get_slots_near_date store target p limit
            = fullM.take limit) :=
  ⟨⟨_, List.perm_insertionSort _ _, List.sorted_insertionSort _ _, rfl⟩,
   ⟨_, List.perm_insertionSort _ _, List.sorted_insertionSort _ _, rfl⟩⟩

end Recruiter
